import Mathlib

/-!
Verification of the `exif-google-gps` program.

This file gives a shallow embedding of the program's core data model and
operations, translated from `src/exif-google-gps.py`:

* `GeoData.search`, `GeoData.compile`, `GeoData.dump`, the location-sample
  construction (`GeoData.sampleOfLocation`);
* `JpegFile.to_deg`, `JpegFile.change_to_rational`, `JpegFile.write_lat_lng`,
  `JpegFile.has_geo`, `JpegFile.get_timestmap`.

Python numbers (ints and floats) are modelled as exact rationals `ℚ`;
Python's truthiness/`in`-dict checks are modelled with `Option`; exceptions
are modelled with `Except`.  The local-clock epoch conversion performed by
`time.mktime` is modelled as the pure proleptic-Gregorian calendar
conversion `epochOfDT` (the executing machine's timezone is an environment
parameter; the model fixes it to zero offset).
-/

/-- A location sample `(timestamp, latitude, longitude)`, the triple stored
in `GeoData._d` by `GeoData.save`.  All three components are Python numbers,
modelled as rationals. -/
structure Sample where
  tsq : ℚ
  lat : ℚ
  lng : ℚ
deriving DecidableEq, Inhabited

/-- The distinct `ValueError` sites of `GeoData.search`:
`'No data available'` (fewer than 2 samples), `'Max delta'` (stale bracket),
and `ValueError(ts)` (no bracketing pair). -/
inductive SearchError where
  | insufficientData
  | toleranceExceeded
  | noBracketingInterval
deriving DecidableEq

namespace GeoData

/-- The loop body of `GeoData.search` (lines 186-199 of the source): walk the
adjacent pairs of the sample list; on the first pair with
`delta_prev <= 0 and delta_post >= 0` either raise `'Max delta'` (when both
signed deltas exceed `max_delta`) or return the coordinate of the endpoint
with the smaller absolute delta, the later endpoint on ties; falling off the
end raises `ValueError(ts)`. -/
def searchFrom (ts md : ℚ) : Sample → List Sample → Except SearchError (ℚ × ℚ)
  | _, [] => Except.error SearchError.noBracketingInterval
  | prev, next :: rest =>
    if prev.tsq - ts ≤ 0 ∧ 0 ≤ next.tsq - ts then
      if md < prev.tsq - ts ∧ md < next.tsq - ts then
        Except.error SearchError.toleranceExceeded
      else if |prev.tsq - ts| < |next.tsq - ts| then Except.ok (prev.lat, prev.lng)
      else Except.ok (next.lat, next.lng)
    else searchFrom ts md next rest

/-- `GeoData.search(ts, max_delta)` on a compiled (list) state: raise
`'No data available'` when fewer than 2 samples exist, otherwise scan the
adjacent pairs. -/
def search (d : List Sample) (ts md : ℚ) : Except SearchError (ℚ × ℚ) :=
  if d.length < 2 then Except.error SearchError.insufficientData
  else
    match d with
    | [] => Except.error SearchError.insufficientData
    | p :: rest => searchFrom ts md p rest

/-- Index `i` is a bracketing pair for `ts` in `d`:
`d[i].timestamp ≤ ts ≤ d[i+1].timestamp`. -/
def bracketAt (d : List Sample) (ts : ℚ) (i : ℕ) : Prop :=
  i + 1 < d.length ∧ (d.getD i default).tsq ≤ ts ∧ ts ≤ (d.getD (i + 1) default).tsq

/-- The last sample of the nonempty list `p :: rest`. -/
def lastSample : Sample → List Sample → Sample
  | p, [] => p
  | _, q :: rest => lastSample q rest

end GeoData

namespace GeoData

lemma bracketAt_cons_succ (p : Sample) (rest : List Sample) (ts : ℚ) (i : ℕ) :
    bracketAt (p :: rest) ts (i + 1) ↔ bracketAt rest ts i := by
  simp only [bracketAt, List.getD_cons_succ, List.length_cons]
  constructor
  · rintro ⟨h1, h2, h3⟩
    exact ⟨by omega, h2, h3⟩
  · rintro ⟨h1, h2, h3⟩
    exact ⟨by omega, h2, h3⟩

/-- Running the scan from the head of a list whose first bracketing pair sits
at index `i` produces exactly the decision the loop body takes at index `i`. -/
lemma searchFrom_at (ts md : ℚ) :
    ∀ (i : ℕ) (p : Sample) (rest : List Sample),
      bracketAt (p :: rest) ts i →
      (∀ j, j < i → ¬ bracketAt (p :: rest) ts j) →
      searchFrom ts md p rest =
        (if md < ((p :: rest).getD i default).tsq - ts ∧
            md < ((p :: rest).getD (i + 1) default).tsq - ts then
          Except.error SearchError.toleranceExceeded
        else if |((p :: rest).getD i default).tsq - ts| <
            |((p :: rest).getD (i + 1) default).tsq - ts| then
          Except.ok (((p :: rest).getD i default).lat, ((p :: rest).getD i default).lng)
        else
          Except.ok (((p :: rest).getD (i + 1) default).lat,
            ((p :: rest).getD (i + 1) default).lng)) := by
  intro i
  induction i with
  | zero =>
    intro p rest hbr _
    cases rest with
    | nil =>
      have hlen := hbr.1
      simp only [List.length_cons, List.length_nil] at hlen
      omega
    | cons q rest' =>
      have h2 := hbr.2.1
      have h3 := hbr.2.2
      simp only [List.getD_cons_succ, List.getD_cons_zero] at h2 h3 ⊢
      rw [searchFrom, if_pos ⟨sub_nonpos.mpr h2, sub_nonneg.mpr h3⟩]
  | succ i ih =>
    intro p rest hbr hmin
    cases rest with
    | nil =>
      have hlen := hbr.1
      simp only [List.length_cons, List.length_nil] at hlen
      omega
    | cons q rest' =>
      have hskip : ¬ bracketAt (p :: q :: rest') ts 0 := hmin 0 (Nat.succ_pos i)
      simp only [bracketAt, List.length_cons, List.getD_cons_succ,
        List.getD_cons_zero] at hskip
      push_neg at hskip
      have hcond : ¬ (p.tsq - ts ≤ 0 ∧ 0 ≤ q.tsq - ts) := by
        rintro ⟨ha, hb⟩
        have h1 := hskip (by omega) (sub_nonpos.mp ha)
        exact absurd (sub_nonneg.mp hb) (not_le.mpr h1)
      rw [searchFrom, if_neg hcond]
      have hbr' : bracketAt (q :: rest') ts i := (bracketAt_cons_succ _ _ _ _).mp hbr
      have hmin' : ∀ j, j < i → ¬ bracketAt (q :: rest') ts j := by
        intro j hj hbad
        exact hmin (j + 1) (by omega) ((bracketAt_cons_succ _ _ _ _).mpr hbad)
      have := ih q (q :: rest').tail hbr' hmin'
      simpa only [List.tail_cons, List.getD_cons_succ] using this

/-- With a bracketing pair present the length guard of `search` passes, and
`search` reduces to the loop decision at the first bracketing index. -/
lemma search_eq_of_bracket (d : List Sample) (ts md : ℚ) (i : ℕ)
    (hbr : bracketAt d ts i) (hmin : ∀ j, j < i → ¬ bracketAt d ts j) :
    search d ts md =
      (if md < (d.getD i default).tsq - ts ∧ md < (d.getD (i + 1) default).tsq - ts then
        Except.error SearchError.toleranceExceeded
      else if |(d.getD i default).tsq - ts| < |(d.getD (i + 1) default).tsq - ts| then
        Except.ok ((d.getD i default).lat, (d.getD i default).lng)
      else
        Except.ok ((d.getD (i + 1) default).lat, (d.getD (i + 1) default).lng)) := by
  cases d with
  | nil =>
    have hlen := hbr.1
    simp only [List.length_nil] at hlen
    omega
  | cons p rest =>
    have hlen := hbr.1
    have hlen2 : ¬ (p :: rest).length < 2 := by
      simp only [List.length_cons] at hlen ⊢
      omega
    rw [search, if_neg hlen2]
    exact searchFrom_at ts md i p rest hbr hmin

end GeoData

/-- C1: when a bracketing pair `sample[i].timestamp ≤ target_ts ≤
sample[i+1].timestamp` exists (taken at the first such index, the one the
linear scan finds) and at least one of its endpoints is within `max_delta`
seconds of `target_ts`, `search` returns the coordinate of a bracket endpoint
whose timestamp is within `max_delta` of `target_ts`; whenever one endpoint
is strictly temporally closer than the other, the returned coordinate is
that closer endpoint's. -/
theorem GeoData.search_within_tolerance (d : List Sample) (ts md : ℚ) (i : ℕ)
    (hbr : GeoData.bracketAt d ts i)
    (hmin : ∀ j, j < i → ¬ GeoData.bracketAt d ts j)
    (htol : |(d.getD i default).tsq - ts| ≤ md ∨ |(d.getD (i + 1) default).tsq - ts| ≤ md) :
    (∃ r, GeoData.search d ts md = Except.ok r ∧
        ((r = ((d.getD i default).lat, (d.getD i default).lng) ∧
            |(d.getD i default).tsq - ts| ≤ md) ∨
          (r = ((d.getD (i + 1) default).lat, (d.getD (i + 1) default).lng) ∧
            |(d.getD (i + 1) default).tsq - ts| ≤ md))) ∧
      (|(d.getD i default).tsq - ts| < |(d.getD (i + 1) default).tsq - ts| →
        GeoData.search d ts md =
          Except.ok ((d.getD i default).lat, (d.getD i default).lng)) ∧
      (|(d.getD (i + 1) default).tsq - ts| < |(d.getD i default).tsq - ts| →
        GeoData.search d ts md =
          Except.ok ((d.getD (i + 1) default).lat, (d.getD (i + 1) default).lng)) := by
  have heq := GeoData.search_eq_of_bracket d ts md i hbr hmin
  have ha : (d.getD i default).tsq ≤ ts := hbr.2.1
  have hb : ts ≤ (d.getD (i + 1) default).tsq := hbr.2.2
  have hmd : 0 ≤ md := by
    rcases htol with h | h
    · exact le_trans (abs_nonneg _) h
    · exact le_trans (abs_nonneg _) h
  have hnotol : ¬ (md < (d.getD i default).tsq - ts ∧
      md < (d.getD (i + 1) default).tsq - ts) := by
    rintro ⟨h1, _⟩
    have : (d.getD i default).tsq - ts ≤ 0 := sub_nonpos.mpr ha
    linarith
  rw [if_neg hnotol] at heq
  by_cases hlt : |(d.getD i default).tsq - ts| < |(d.getD (i + 1) default).tsq - ts|
  · rw [if_pos hlt] at heq
    have hina : |(d.getD i default).tsq - ts| ≤ md := by
      rcases htol with h | h
      · exact h
      · exact le_of_lt (lt_of_lt_of_le hlt h)
    refine ⟨⟨_, heq, Or.inl ⟨rfl, hina⟩⟩, fun _ => heq, fun hgt => absurd hlt (not_lt.mpr (le_of_lt hgt))⟩
  · rw [if_neg hlt] at heq
    have hinb : |(d.getD (i + 1) default).tsq - ts| ≤ md := by
      rcases htol with h | h
      · exact le_trans (not_lt.mp hlt) h
      · exact h
    exact ⟨⟨_, heq, Or.inr ⟨rfl, hinb⟩⟩, fun hlt' => absurd hlt' hlt, fun _ => heq⟩

/-- C1 witness: for samples `[(100, 10.0, 20.0), (200, 11.0, 21.0)]` and the
query `ts = 140`, `max_delta = 60`, the bracket is at index 0, the earlier
endpoint is within tolerance, and `search` returns `(10.0, 20.0)`. -/
theorem GeoData.search_within_tolerance_witness :
    GeoData.search [⟨100, 10, 20⟩, ⟨200, 11, 21⟩] 140 60 = Except.ok (10, 20) := by
  have h := GeoData.search_within_tolerance [⟨100, 10, 20⟩, ⟨200, 11, 21⟩] 140 60 0
    (by constructor
        · norm_num
        · norm_num [GeoData.bracketAt, List.getD])
    (by intro j hj; omega)
    (by left; norm_num [List.getD])
  have h2 := h.2.1 (by norm_num [List.getD])
  simpa [List.getD] using h2

/-- C2: at the failing input of the claim - samples `[(100, 0, 0), (200, 0, 0)]`,
query `ts = 150`, `max_delta = 10` - the code does NOT raise `'Max delta'`:
inside a bracket `delta_prev = self._d[idx][0] - ts` is never positive, so the
signed comparison `delta_prev > max_delta` is false for every nonnegative
`max_delta`, and `search` returns the later endpoint's coordinate `(0.0, 0.0)`
even though both endpoints are 50 seconds away from the query. -/
theorem GeoData.search_stale_bracket_returns :
    GeoData.search [⟨100, 0, 0⟩, ⟨200, 0, 0⟩] 150 10 = Except.ok (0, 0) := by
  norm_num [GeoData.search, GeoData.searchFrom]

/-- C3 counterexample: for samples `[(100, 1, 2), (200, 3, 4)]` and the
midpoint query `ts = 150` (equal absolute distance 50 to both endpoints, both
within `max_delta = 1000`), `search` returns the LATER endpoint's coordinate
`(3, 4)`, not the earlier endpoint's `(1, 2)`: the source compares
`abs(delta_prev) < abs(delta_post)` strictly, so ties fall to the
`else` branch returning `self._d[idx+1]`. -/
theorem GeoData.search_tie_counterexample :
    GeoData.search [⟨100, 1, 2⟩, ⟨200, 3, 4⟩] 150 1000 = Except.ok (3, 4) ∧
      ((3 : ℚ), (4 : ℚ)) ≠ ((1 : ℚ), (2 : ℚ)) := by
  constructor
  · norm_num [GeoData.search, GeoData.searchFrom]
  · norm_num

/-- C3 amended: when `target_ts` lies exactly at the midpoint of the first
bracketing pair (equal absolute distance to both endpoints, both within
`max_delta`), `search` returns the coordinate of the LATER (higher-index)
endpoint, never the earlier one. -/
theorem GeoData.search_tie_returns_later (d : List Sample) (ts md : ℚ) (i : ℕ)
    (hbr : GeoData.bracketAt d ts i)
    (hmin : ∀ j, j < i → ¬ GeoData.bracketAt d ts j)
    (htie : |(d.getD i default).tsq - ts| = |(d.getD (i + 1) default).tsq - ts|)
    (hin : |(d.getD i default).tsq - ts| ≤ md) :
    GeoData.search d ts md =
      Except.ok ((d.getD (i + 1) default).lat, (d.getD (i + 1) default).lng) := by
  have heq := GeoData.search_eq_of_bracket d ts md i hbr hmin
  have ha : (d.getD i default).tsq ≤ ts := hbr.2.1
  have hmd : 0 ≤ md := le_trans (abs_nonneg _) hin
  have hnotol : ¬ (md < (d.getD i default).tsq - ts ∧
      md < (d.getD (i + 1) default).tsq - ts) := by
    rintro ⟨h1, _⟩
    have : (d.getD i default).tsq - ts ≤ 0 := sub_nonpos.mpr ha
    linarith
  rw [if_neg hnotol, if_neg (by rw [htie]; exact lt_irrefl _)] at heq
  exact heq

/-- C3 amended witness: the midpoint query of the counterexample, derived
from the amended theorem: `search` returns the later endpoint `(3, 4)`. -/
theorem GeoData.search_tie_returns_later_witness :
    GeoData.search [⟨100, 1, 2⟩, ⟨200, 3, 4⟩] 150 1000 = Except.ok (3, 4) := by
  have h := GeoData.search_tie_returns_later [⟨100, 1, 2⟩, ⟨200, 3, 4⟩] 150 1000 0
    (by constructor
        · norm_num
        · norm_num [GeoData.bracketAt, List.getD])
    (by intro j hj; omega)
    (by norm_num [List.getD])
    (by norm_num [List.getD])
  simpa [List.getD] using h

namespace GeoData

/-- The scan falls off the end (raising `ValueError(ts)`) exactly when no
adjacent pair brackets the query. -/
lemma searchFrom_eq_noBracket_iff (ts md : ℚ) :
    ∀ (p : Sample) (rest : List Sample),
      (searchFrom ts md p rest = Except.error SearchError.noBracketingInterval ↔
        ∀ i, ¬ bracketAt (p :: rest) ts i) := by
  intro p rest
  induction rest generalizing p with
  | nil =>
    simp only [searchFrom, true_iff]
    intro i hbr
    have := hbr.1
    simp only [List.length_cons, List.length_nil] at this
    omega
  | cons q rest' ih =>
    by_cases hcond : p.tsq - ts ≤ 0 ∧ 0 ≤ q.tsq - ts
    · rw [searchFrom, if_pos hcond]
      constructor
      · intro h
        by_cases htol : md < p.tsq - ts ∧ md < q.tsq - ts
        · rw [if_pos htol] at h
          exact absurd h (by simp)
        · rw [if_neg htol] at h
          by_cases hlt : |p.tsq - ts| < |q.tsq - ts|
          · rw [if_pos hlt] at h
            exact absurd h (by simp)
          · rw [if_neg hlt] at h
            exact absurd h (by simp)
      · intro h
        exfalso
        refine h 0 ⟨?_, ?_, ?_⟩
        · simp only [List.length_cons]
          omega
        · simpa only [List.getD_cons_zero] using sub_nonpos.mp hcond.1
        · simpa only [List.getD_cons_succ, List.getD_cons_zero] using
            sub_nonneg.mp hcond.2
    · rw [searchFrom, if_neg hcond]
      rw [ih q]
      constructor
      · intro h i hbr
        cases i with
        | zero =>
          apply hcond
          refine ⟨sub_nonpos.mpr ?_, sub_nonneg.mpr ?_⟩
          · simpa only [List.getD_cons_zero] using hbr.2.1
          · simpa only [List.getD_cons_succ, List.getD_cons_zero] using hbr.2.2
        | succ i =>
          exact h i ((bracketAt_cons_succ _ _ _ _).mp hbr)
      · intro h i hbr
        exact h (i + 1) ((bracketAt_cons_succ _ _ _ _).mpr hbr)

lemma lastSample_mem (p : Sample) (rest : List Sample) :
    lastSample p rest ∈ p :: rest := by
  induction rest generalizing p with
  | nil => simp [lastSample]
  | cons q rest' ih =>
    rw [lastSample]
    exact List.mem_cons_of_mem p (ih q)

/-- In a timestamp-sorted list every element's timestamp is at most the last
element's timestamp. -/
lemma tsq_le_lastSample (p : Sample) (rest : List Sample)
    (hs : (p :: rest).Pairwise (fun a b => a.tsq ≤ b.tsq)) :
    ∀ x ∈ p :: rest, x.tsq ≤ (lastSample p rest).tsq := by
  induction rest generalizing p with
  | nil =>
    intro x hx
    simp only [List.mem_singleton] at hx
    subst hx
    exact le_refl _
  | cons q rest' ih =>
    intro x hx
    rw [lastSample]
    rcases List.mem_cons.mp hx with hx | hx
    · subst hx
      have hpq : ∀ y ∈ q :: rest', x.tsq ≤ y.tsq := (List.pairwise_cons.mp hs).1
      exact hpq _ (lastSample_mem q rest')
    · exact ih q (List.pairwise_cons.mp hs).2 x hx

/-- If the query lies between the head's and the last element's timestamps,
some adjacent pair brackets it. -/
lemma exists_bracket (ts : ℚ) :
    ∀ (p : Sample) (rest : List Sample), rest ≠ [] →
      p.tsq ≤ ts → ts ≤ (lastSample p rest).tsq →
      ∃ i, bracketAt (p :: rest) ts i := by
  intro p rest
  induction rest generalizing p with
  | nil => intro h; exact absurd rfl h
  | cons q rest' ih =>
    intro _ hp hlast
    by_cases hq : ts ≤ q.tsq
    · refine ⟨0, ⟨?_, ?_, ?_⟩⟩
      · simp only [List.length_cons]
        omega
      · simpa only [List.getD_cons_zero] using hp
      · simpa only [List.getD_cons_succ, List.getD_cons_zero] using hq
    · cases rest' with
      | nil =>
        rw [lastSample, lastSample] at hlast
        exact absurd hlast hq
      | cons r rest'' =>
        rw [lastSample] at hlast
        obtain ⟨i, hbr⟩ := ih q (by simp) (le_of_lt (not_le.mp hq)) hlast
        exact ⟨i + 1, (bracketAt_cons_succ _ _ _ _).mpr hbr⟩

end GeoData

/-- C7: `search` fails with `InsufficientData` whenever the index holds fewer
than 2 samples; and on a timestamp-sorted index with at least 2 samples it
fails with `NoBracketingInterval` if and only if `target_ts` is strictly
before the first sample's timestamp or strictly after the last sample's
timestamp. -/
theorem GeoData.search_failure_characterization (d : List Sample) (ts md : ℚ) :
    (d.length < 2 → GeoData.search d ts md = Except.error SearchError.insufficientData) ∧
      (∀ p rest, d = p :: rest → rest ≠ [] →
        d.Pairwise (fun a b => a.tsq ≤ b.tsq) →
        (GeoData.search d ts md = Except.error SearchError.noBracketingInterval ↔
          (ts < p.tsq ∨ (GeoData.lastSample p rest).tsq < ts))) := by
  constructor
  · intro hlen
    rw [GeoData.search.eq_def, if_pos hlen]
  · rintro p rest rfl hne hs
    have hlen2 : ¬ (p :: rest).length < 2 := by
      cases rest with
      | nil => exact absurd rfl hne
      | cons q rest' =>
        simp only [List.length_cons]
        omega
    rw [GeoData.search, if_neg hlen2]
    rw [GeoData.searchFrom_eq_noBracket_iff]
    constructor
    · intro h
      by_contra hcon
      push_neg at hcon
      obtain ⟨i, hbr⟩ := GeoData.exists_bracket ts p rest hne hcon.1 hcon.2
      exact h i hbr
    · rintro (hfirst | hlast) i hbr
      · have hmem : (p :: rest).getD i default ∈ p :: rest := by
          have hi : i < (p :: rest).length := by
            have := hbr.1
            omega
          rw [List.getD_eq_getElem _ _ hi]
          exact List.getElem_mem hi
        have hple : p.tsq ≤ ((p :: rest).getD i default).tsq := by
          rcases List.mem_cons.mp hmem with hx | hx
          · rw [hx]
          · exact List.rel_of_pairwise_cons hs hx
        have := hbr.2.1
        linarith
      · have hmem : (p :: rest).getD (i + 1) default ∈ p :: rest := by
          have hi : i + 1 < (p :: rest).length := hbr.1
          rw [List.getD_eq_getElem _ _ hi]
          exact List.getElem_mem hi
        have hle := GeoData.tsq_le_lastSample p rest hs _ hmem
        have := hbr.2.2
        linarith

/-- C7 witness: singleton index fails with `InsufficientData`; and for samples
`[(100, 10.0, 20.0), (200, 11.0, 21.0)]` the query `ts = 500`, `max_delta = 60`
fails with `NoBracketingInterval` (500 is after the last sample). -/
theorem GeoData.search_failure_characterization_witness :
    GeoData.search [⟨100, 10, 20⟩] 300 60 = Except.error SearchError.insufficientData ∧
      GeoData.search [⟨100, 10, 20⟩, ⟨200, 11, 21⟩] 500 60 =
        Except.error SearchError.noBracketingInterval := by
  constructor
  · exact (GeoData.search_failure_characterization [⟨100, 10, 20⟩] 300 60).1 (by norm_num)
  · exact ((GeoData.search_failure_characterization [⟨100, 10, 20⟩, ⟨200, 11, 21⟩] 500 60).2
      ⟨100, 10, 20⟩ [⟨200, 11, 21⟩] rfl (by simp)
      (by norm_num)).mpr
      (by right; norm_num [GeoData.lastSample])

/-- A raw Google location-history entry: a millisecond epoch timestamp and
1e-7-degree fixed-point latitude/longitude, the three fields read by
`GeoData.save`. -/
structure RawLocation where
  timestampMs : ℤ
  latitudeE7 : ℤ
  longitudeE7 : ℤ
deriving DecidableEq

namespace GeoData

/-- The sample built by `GeoData.save` from one raw entry:
`(int(location['timestampMs']) / 1000, location['latitudeE7'] / 10000000,
location['longitudeE7'] / 10000000)`, with Python 3 true division. -/
def sampleOfLocation (loc : RawLocation) : Sample :=
  ⟨(loc.timestampMs : ℚ) / 1000, (loc.latitudeE7 : ℚ) / 10000000,
    (loc.longitudeE7 : ℚ) / 10000000⟩

/-- The state of `GeoData._d`: a working set (a Python `set`, modelled as a
duplicate-free list) before `compile`, a sorted list afterwards. -/
inductive GeoState where
  | raw (s : List Sample)
  | compiled (l : List Sample)
deriving DecidableEq

/-- `GeoData.save(location)` adds the scaled triple to the working set;
adding an identical triple to a set is a no-op. -/
def save (st : GeoState) (loc : RawLocation) : GeoState :=
  match st with
  | GeoState.raw s =>
    if sampleOfLocation loc ∈ s then GeoState.raw s
    else GeoState.raw (s ++ [sampleOfLocation loc])
  | GeoState.compiled l => GeoState.compiled l

/-- Lexicographic key of a sample: Python's `sorted` compares the stored
`(timestamp, lat, lng)` tuples lexicographically. -/
def sampleKey (a : Sample) : ℚ ×ₗ ℚ ×ₗ ℚ := toLex (a.tsq, toLex (a.lat, a.lng))

/-- Boolean lexicographic comparison of samples. -/
def sampleLe (a b : Sample) : Bool := decide (sampleKey a ≤ sampleKey b)

/-- `GeoData.compile()`: `if not isinstance(self._d, list): self._d =
sorted(self._d)` - sort the working set once, leave an already-compiled list
untouched. -/
def compile (st : GeoState) : GeoState :=
  match st with
  | GeoState.raw s => GeoState.compiled (s.mergeSort sampleLe)
  | GeoState.compiled l => GeoState.compiled l

/-- The underlying sample sequence of a state. -/
def stateList (st : GeoState) : List Sample :=
  match st with
  | GeoState.raw s => s
  | GeoState.compiled l => l

/-- `GeoData.dump()`: compile, then serialize `self._d`.  `pickle.dumps` is a
deterministic injective function of the list, so byte output is modelled by
the list itself. -/
def dump (st : GeoState) : List Sample := stateList (compile st)

lemma sampleLe_trans (a b c : Sample) :
    sampleLe a b = true → sampleLe b c = true → sampleLe a c = true := by
  simp only [sampleLe, decide_eq_true_eq]
  exact le_trans

lemma sampleLe_total (a b : Sample) : (sampleLe a b || sampleLe b a) = true := by
  simp only [sampleLe, Bool.or_eq_true, decide_eq_true_eq]
  exact le_total _ _

lemma sampleLe_tsq_le (a b : Sample) (h : sampleLe a b = true) : a.tsq ≤ b.tsq := by
  simp only [sampleLe, decide_eq_true_eq, sampleKey, Prod.Lex.le_iff] at h
  rcases h with h | ⟨h, _⟩
  · exact le_of_lt h
  · exact le_of_eq h

end GeoData

/-- C10: `compile()` is idempotent - recompiling a compiled state changes
nothing, and serializing (`dump`) after one or after two `compile()` calls
yields identical output; compiling a working set (a duplicate-free set of
samples) yields a sequence sorted by timestamp (indeed lexicographically
sorted), duplicate-free, and containing exactly the working set's samples. -/
theorem GeoData.compile_idempotent (st : GeoData.GeoState) :
    GeoData.compile (GeoData.compile st) = GeoData.compile st ∧
      GeoData.dump (GeoData.compile st) = GeoData.dump st ∧
      (∀ s, st = GeoData.GeoState.raw s →
        (GeoData.stateList (GeoData.compile st)).Pairwise (fun a b => a.tsq ≤ b.tsq) ∧
          (s.Nodup → (GeoData.stateList (GeoData.compile st)).Nodup) ∧
          (GeoData.stateList (GeoData.compile st)).Perm s) := by
  refine ⟨?_, ?_, ?_⟩
  · cases st <;> rfl
  · cases st <;> rfl
  · rintro s rfl
    refine ⟨?_, ?_, ?_⟩
    · have hs := List.sorted_mergeSort GeoData.sampleLe_trans GeoData.sampleLe_total s
      exact hs.imp (fun h => GeoData.sampleLe_tsq_le _ _ h)
    · intro hnd
      exact ((s.mergeSort_perm GeoData.sampleLe).nodup_iff).mpr hnd
    · exact s.mergeSort_perm GeoData.sampleLe

/-- C10 witness: compiling the two-element working set
`{(200, 1, 1), (100, 0, 0)}` twice equals compiling it once, dumping is
stable under recompiling, and the compiled sequence is sorted, duplicate-free
and a permutation of the working set. -/
theorem GeoData.compile_idempotent_witness :
    GeoData.compile (GeoData.compile (GeoData.GeoState.raw [⟨200, 1, 1⟩, ⟨100, 0, 0⟩])) =
        GeoData.compile (GeoData.GeoState.raw [⟨200, 1, 1⟩, ⟨100, 0, 0⟩]) ∧
      GeoData.dump (GeoData.compile (GeoData.GeoState.raw [⟨200, 1, 1⟩, ⟨100, 0, 0⟩])) =
        GeoData.dump (GeoData.GeoState.raw [⟨200, 1, 1⟩, ⟨100, 0, 0⟩]) ∧
      (GeoData.stateList
          (GeoData.compile (GeoData.GeoState.raw [⟨200, 1, 1⟩, ⟨100, 0, 0⟩]))).Pairwise
        (fun a b => a.tsq ≤ b.tsq) ∧
      (GeoData.stateList
          (GeoData.compile (GeoData.GeoState.raw [⟨200, 1, 1⟩, ⟨100, 0, 0⟩]))).Nodup := by
  have h := GeoData.compile_idempotent (GeoData.GeoState.raw [⟨200, 1, 1⟩, ⟨100, 0, 0⟩])
  have h3 := h.2.2 [⟨200, 1, 1⟩, ⟨100, 0, 0⟩] rfl
  exact ⟨h.1, h.2.1, h3.1, h3.2.1 (by decide)⟩

/-- C9 counterexample: the raw entry with `timestampMs = 1500` (not divisible
by 1000) is stored with timestamp `3/2` - Python 3 `/` is true division - so
the stored timestamp is NOT an integer number of seconds. -/
theorem GeoData.save_timestamp_not_integer :
    (GeoData.sampleOfLocation ⟨1500, 100000000, 200000000⟩).tsq = 3 / 2 ∧
      ¬ ∃ n : ℤ, (GeoData.sampleOfLocation ⟨1500, 100000000, 200000000⟩).tsq = (n : ℚ) := by
  constructor
  · norm_num [GeoData.sampleOfLocation]
  · rintro ⟨n, hn⟩
    rw [show (GeoData.sampleOfLocation ⟨1500, 100000000, 200000000⟩).tsq = 3 / 2 by
      norm_num [GeoData.sampleOfLocation]] at hn
    have h : (3 : ℚ) = 2 * (n : ℚ) := by linarith
    have h2 : (3 : ℤ) = 2 * n := by exact_mod_cast h
    omega

/-- C9 amended: for every raw entry `(t, la, lo)` the stored sample is exactly
`(t/1000, la/1e7, lo/1e7)` as exact rationals, and its timestamp component is
an integer number of seconds precisely when `t` is divisible by 1000 (Python 3
`/` is true division, so non-multiples of 1000 yield fractional seconds). -/
theorem GeoData.save_scaling (loc : RawLocation) :
    GeoData.sampleOfLocation loc =
        ⟨(loc.timestampMs : ℚ) / 1000, (loc.latitudeE7 : ℚ) / 10000000,
          (loc.longitudeE7 : ℚ) / 10000000⟩ ∧
      ((∃ n : ℤ, (GeoData.sampleOfLocation loc).tsq = (n : ℚ)) ↔
        (1000 : ℤ) ∣ loc.timestampMs) := by
  refine ⟨rfl, ?_, ?_⟩
  · rintro ⟨n, hn⟩
    simp only [GeoData.sampleOfLocation] at hn
    have h1000 : ((1000 : ℚ)) ≠ 0 := by norm_num
    rw [div_eq_iff h1000] at hn
    refine ⟨n, ?_⟩
    have : loc.timestampMs = n * 1000 := by exact_mod_cast hn
    omega
  · rintro ⟨k, hk⟩
    refine ⟨k, ?_⟩
    simp only [GeoData.sampleOfLocation, hk]
    push_cast
    ring

namespace JpegFile

/-- Python's `round` at a tie rounds half to even; `roundHalfEven q` is the
integer `round(q)`. -/
def roundHalfEven (q : ℚ) : ℤ :=
  let f := ⌊q⌋
  let r := q - f
  if r < 1 / 2 then f
  else if 1 / 2 < r then f + 1
  else if f % 2 = 0 then f else f + 1

/-- `round(x, 5)` - round to 5 decimal places, half to even. -/
def round5 (q : ℚ) : ℚ := (roundHalfEven (q * 100000) : ℚ) / 100000

/-- `to_deg(value, loc)` from `write_lat_lng` (source lines 57-73): hemisphere
letter from the sign (`loc[0]` when negative, `loc[1]` when positive, `""`
when zero), then degrees = `int(abs(value))`, minutes = `int(t1)` with
`t1 = (abs(value) - deg) * 60`, seconds = `round((t1 - min) * 60, 5)`. -/
def to_deg (value : ℚ) (locNeg locPos : String) : ℕ × ℕ × ℚ × String :=
  let locValue := if value < 0 then locNeg else if 0 < value then locPos else ""
  let absValue := |value|
  let deg : ℕ := (⌊absValue⌋).toNat
  let t1 := (absValue - (deg : ℚ)) * 60
  let mn : ℕ := (⌊t1⌋).toNat
  let sec := round5 ((t1 - (mn : ℚ)) * 60)
  (deg, mn, sec, locValue)

/-- `change_to_rational(number)`: `Fraction(str(number))` builds the exact
rational of the decimal string in lowest terms; on the exact-rational model
of Python numbers this is the numerator/denominator pair of the value. -/
def change_to_rational (q : ℚ) : ℤ × ℕ := (q.num, q.den)

end JpegFile

/-- C4: for every coordinate value, the hemisphere letter of `to_deg` is the
negative-side letter exactly when the value is negative, the positive-side
letter exactly when positive, and empty exactly when zero; degrees is the
integer part of the absolute value, minutes the integer part of the
fractional degrees times 60, seconds the remaining fractional minutes times
60 rounded to 5 decimal places; `change_to_rational` yields an exact
numerator/denominator pair in lowest terms.  In particular
`to_deg (-33.456) ["S","N"]` is `(33, 27, 21.6, "S")`. -/
theorem JpegFile.to_deg_spec :
    (∀ v : ℚ,
      ((JpegFile.to_deg v "S" "N").2.2.2 = "S" ↔ v < 0) ∧
        ((JpegFile.to_deg v "S" "N").2.2.2 = "N" ↔ 0 < v) ∧
        ((JpegFile.to_deg v "S" "N").2.2.2 = "" ↔ v = 0) ∧
        (((JpegFile.to_deg v "S" "N").1 : ℤ) = ⌊|v|⌋) ∧
        (((JpegFile.to_deg v "S" "N").2.1 : ℤ) = ⌊(|v| - (⌊|v|⌋ : ℚ)) * 60⌋) ∧
        ((JpegFile.to_deg v "S" "N").2.2.1 =
          JpegFile.round5
            (((|v| - (⌊|v|⌋ : ℚ)) * 60 - (⌊(|v| - (⌊|v|⌋ : ℚ)) * 60⌋ : ℚ)) * 60)) ∧
        (JpegFile.change_to_rational
              (JpegFile.to_deg v "S" "N").2.2.1).1.natAbs.Coprime
          (JpegFile.change_to_rational (JpegFile.to_deg v "S" "N").2.2.1).2 ∧
        ((JpegFile.change_to_rational (JpegFile.to_deg v "S" "N").2.2.1).1 : ℚ) /
            ((JpegFile.change_to_rational (JpegFile.to_deg v "S" "N").2.2.1).2 : ℚ) =
          (JpegFile.to_deg v "S" "N").2.2.1) ∧
      JpegFile.to_deg (-33.456) "S" "N" = (33, 27, 21.6, "S") := by
  constructor
  · intro v
    have hfloor_nonneg : (0 : ℤ) ≤ ⌊|v|⌋ := Int.floor_nonneg.mpr (abs_nonneg v)
    have hdeg : ((⌊|v|⌋).toNat : ℤ) = ⌊|v|⌋ := Int.toNat_of_nonneg hfloor_nonneg
    have hdegQ : (((⌊|v|⌋).toNat : ℕ) : ℚ) = (⌊|v|⌋ : ℚ) := by exact_mod_cast hdeg
    have ht1_nonneg : (0 : ℚ) ≤ (|v| - (⌊|v|⌋ : ℚ)) * 60 := by
      have := Int.floor_le (|v|)
      nlinarith
    have hmn_nonneg : (0 : ℤ) ≤ ⌊(|v| - (⌊|v|⌋ : ℚ)) * 60⌋ := Int.floor_nonneg.mpr ht1_nonneg
    have hmn : ((⌊(|v| - (⌊|v|⌋ : ℚ)) * 60⌋).toNat : ℤ) = ⌊(|v| - (⌊|v|⌋ : ℚ)) * 60⌋ :=
      Int.toNat_of_nonneg hmn_nonneg
    have hmnQ : (((⌊(|v| - (⌊|v|⌋ : ℚ)) * 60⌋).toNat : ℕ) : ℚ) =
        (⌊(|v| - (⌊|v|⌋ : ℚ)) * 60⌋ : ℚ) := by exact_mod_cast hmn
    refine ⟨?_, ?_, ?_, ?_, ?_, ?_, ?_, ?_⟩
    · simp only [JpegFile.to_deg]
      rcases lt_trichotomy v 0 with hv | hv | hv
      · simp [hv]
      · simp [hv]
      · rw [if_neg (by linarith), if_pos hv]
        constructor
        · intro h
          exact absurd h (by decide)
        · intro h
          linarith
    · simp only [JpegFile.to_deg]
      rcases lt_trichotomy v 0 with hv | hv | hv
      · rw [if_pos hv]
        constructor
        · intro h
          exact absurd h (by decide)
        · intro h
          linarith
      · simp [hv]
      · rw [if_neg (by linarith), if_pos hv]
        simp [hv]
    · simp only [JpegFile.to_deg]
      rcases lt_trichotomy v 0 with hv | hv | hv
      · rw [if_pos hv]
        constructor
        · intro h
          exact absurd h (by decide)
        · intro h
          simp [h] at hv
      · simp [hv]
      · rw [if_neg (by linarith), if_pos hv]
        constructor
        · intro h
          exact absurd h (by decide)
        · intro h
          simp [h] at hv
    · simpa only [JpegFile.to_deg] using hdeg
    · simp only [JpegFile.to_deg, hdegQ]
      exact hmn
    · simp only [JpegFile.to_deg, hdegQ, hmnQ]
    · exact (JpegFile.to_deg v "S" "N").2.2.1.reduced
    · exact Rat.num_div_den _
  · have h1 : |(-33.456 : ℚ)| = 33.456 := by norm_num
    simp only [JpegFile.to_deg, h1]
    rw [if_pos (by norm_num : (-33.456 : ℚ) < 0)]
    rw [show ⌊(33.456 : ℚ)⌋ = 33 by norm_num]
    rw [show (33 : ℤ).toNat = 33 from rfl]
    rw [show ⌊((33.456 : ℚ) - ((33 : ℕ) : ℚ)) * 60⌋ = 27 by push_cast; norm_num]
    rw [show (27 : ℤ).toNat = 27 from rfl]
    rw [show (((33.456 : ℚ) - ((33 : ℕ) : ℚ)) * 60 - ((27 : ℕ) : ℚ)) * 60 = 21.6 by
      push_cast; norm_num]
    rw [show JpegFile.round5 (21.6 : ℚ) = 21.6 by
      simp only [JpegFile.round5, JpegFile.roundHalfEven,
        show (21.6 : ℚ) * 100000 = 2160000 by norm_num]
      norm_num]

/-- A parsed calendar timestamp, the result of
`datetime.strptime(dt, '%Y:%m:%d %H:%M:%S')`. -/
structure DT where
  year : ℕ
  month : ℕ
  day : ℕ
  hour : ℕ
  minute : ℕ
  second : ℕ
deriving DecidableEq

/-- The exception sites of `JpegFile._get_timestmap`: the two explicit
`ValueError`s (`"exif tags not found"`, `"original != digitized"`), the
`ValueError` raised by `strptime` on a malformed string, and the
`AttributeError` raised by the misspelled `datetime.timedelta(days=1)` on the
hour-24 normalization path (`datetime` is the class imported by
`from datetime import datetime`, which has no `timedelta` attribute). -/
inductive TsError where
  | missingTimestamp
  | timestampMismatch
  | valueError
  | attributeError
deriving DecidableEq

namespace JpegFile

/-- Tests whether the pattern is an initial run of the string. -/
def leadsWith : List Char → List Char → Bool
  | [], _ => true
  | _ :: _, [] => false
  | p :: ps, c :: cs => p = c && leadsWith ps cs

/-- Tests whether the pattern occurs anywhere in the string
(`str.find(pat) >= 0`). -/
def hasSubstr : List Char → List Char → Bool
  | [], pat => pat.isEmpty
  | c :: cs, pat => leadsWith pat (c :: cs) || hasSubstr cs pat

/-- The pattern `' 24:'` searched by `dt.find(' 24:')`. -/
def hour24pat : List Char := [' ', '2', '4', ':']

/-- Numeric value of two decimal digit characters. -/
def num2 (a b : Char) : Option ℕ :=
  if a.isDigit && b.isDigit then some (10 * (a.toNat - 48) + (b.toNat - 48)) else none

/-- Numeric value of four decimal digit characters. -/
def num4 (a b c d : Char) : Option ℕ :=
  match num2 a b, num2 c d with
  | some hi, some lo => some (100 * hi + lo)
  | _, _ => none

/-- Gregorian leap-year test. -/
def isLeap (y : ℕ) : Bool := y % 4 = 0 && (y % 100 ≠ 0 || y % 400 = 0)

/-- Number of days of a month, as validated by `datetime`. -/
def daysInMonth (y m : ℕ) : ℕ :=
  if m = 2 then (if isLeap y then 29 else 28)
  else if m = 4 ∨ m = 6 ∨ m = 9 ∨ m = 11 then 30
  else 31

/-- Field-range validation performed by `strptime`/`datetime`. -/
def validDT (y mo dy h mi se : ℕ) : Bool :=
  1 ≤ y && y ≤ 9999 && 1 ≤ mo && mo ≤ 12 && 1 ≤ dy && dy ≤ daysInMonth y mo &&
    h ≤ 23 && mi ≤ 59 && se ≤ 59

/-- Parses the fixed pattern `YYYY:MM:DD HH:MM:SS`. -/
def parseFixed (cs : List Char) : Option DT :=
  match cs with
  | [y1, y2, y3, y4, c1, o1, o2, c2, d1, d2, sp, h1, h2, c3, i1, i2, c4, s1, s2] =>
    if c1 = ':' && c2 = ':' && sp = ' ' && c3 = ':' && c4 = ':' then
      match num4 y1 y2 y3 y4, num2 o1 o2, num2 d1 d2, num2 h1 h2, num2 i1 i2,
          num2 s1 s2 with
      | some y, some mo, some dy, some h, some mi, some se =>
        if validDT y mo dy h mi se then some ⟨y, mo, dy, h, mi, se⟩ else none
      | _, _, _, _, _, _ => none
    else none
  | _ => none

/-- Parsing of one EXIF timestamp string by `_get_timestmap` (source lines
123-132): when `dt.find(' 24:') > 0` - the pattern occurs at a positive index,
which for the fixed format means an hour field of 24 - the code evaluates
`datetime.timedelta(days=1)` and crashes with `AttributeError`; otherwise
`strptime` either parses the fixed pattern or raises `ValueError`. -/
def parseExifDt (s : String) : Except TsError DT :=
  let cs := s.toList
  if hasSubstr cs hour24pat && ! leadsWith hour24pat cs then
    Except.error TsError.attributeError
  else
    match parseFixed cs with
    | some dt => Except.ok dt
    | none => Except.error TsError.valueError

/-- Parses an optional EXIF tag: an absent tag (`KeyError`) yields `none`. -/
def parseTag : Option String → Except TsError (Option DT)
  | none => Except.ok none
  | some s => (parseExifDt s).map some

/-- Days between a Gregorian calendar date and 1970-01-01. -/
def daysFromCivil (y m d : ℤ) : ℤ :=
  let y' := if m ≤ 2 then y - 1 else y
  let era := Int.fdiv y' 400
  let yoe := y' - era * 400
  let mp := if m ≤ 2 then m + 9 else m - 3
  let doy := Int.fdiv (153 * mp + 2) 5 + d - 1
  let doe := yoe * 365 + Int.fdiv yoe 4 - Int.fdiv yoe 100 + doy
  era * 146097 + doe - 719468

/-- Epoch seconds of a parsed timestamp: `int(time.mktime(dt.timetuple()))`,
modelled as the pure calendar conversion (the machine timezone fixed to zero
offset). -/
def epochOfDT (t : DT) : ℤ :=
  86400 * daysFromCivil t.year t.month t.day + 3600 * t.hour + 60 * t.minute + t.second

/-- `JpegFile._get_timestmap` on the two optional EXIF timestamp tags
(`DateTimeOriginal`, `DateTimeDigitized`), after the photo's tag dictionary
has been read: parse each present tag (original first, matching the dict
iteration order), fail with `"exif tags not found"` when both are absent,
fail with the mismatch `ValueError` when both are present and differ, and
otherwise return epoch seconds of `t['digitized'] or t['original']`. -/
def get_timestmap (orig digi : Option String) : Except TsError ℤ :=
  match parseTag orig with
  | Except.error e => Except.error e
  | Except.ok od =>
    match parseTag digi with
    | Except.error e => Except.error e
    | Except.ok dd =>
      if od = none ∧ dd = none then Except.error TsError.missingTimestamp
      else if od ≠ none ∧ dd ≠ none ∧ od ≠ dd then
        Except.error TsError.timestampMismatch
      else
        match dd with
        | some dt => Except.ok (epochOfDT dt)
        | none =>
          match od with
          | some dt => Except.ok (epochOfDT dt)
          | none => Except.error TsError.missingTimestamp

end JpegFile

/-- C5: on a photo whose present timestamp tags are well-formed (each parses),
timestamp extraction fails with `"exif tags not found"` exactly when neither
the original nor the digitized tag is present; fails with the mismatch
`ValueError` when both are present and parse to different instants; and
otherwise returns epoch seconds of the digitized timestamp when present, else
of the original. -/
theorem JpegFile.get_timestmap_spec (o d : Option String) (od dd : Option DT)
    (ho : JpegFile.parseTag o = Except.ok od)
    (hd : JpegFile.parseTag d = Except.ok dd) :
    (JpegFile.get_timestmap o d = Except.error TsError.missingTimestamp ↔
        (o = none ∧ d = none)) ∧
      (∀ x y, od = some x → dd = some y → x ≠ y →
        JpegFile.get_timestmap o d = Except.error TsError.timestampMismatch) ∧
      (∀ y, dd = some y → (od ≠ none → od = dd) →
        JpegFile.get_timestmap o d = Except.ok (JpegFile.epochOfDT y)) ∧
      (dd = none → ∀ x, od = some x →
        JpegFile.get_timestmap o d = Except.ok (JpegFile.epochOfDT x)) := by
  have hod : od = none ↔ o = none := by
    cases o with
    | none =>
      simp only [JpegFile.parseTag] at ho
      injection ho with h
      simp [h.symm]
    | some s =>
      simp only [JpegFile.parseTag] at ho
      cases hps : JpegFile.parseExifDt s with
      | error e =>
        rw [hps] at ho
        exact absurd ho (by simp [Except.map])
      | ok v =>
        rw [hps] at ho
        simp only [Except.map] at ho
        injection ho with h
        simp [h.symm]
  have hdd : dd = none ↔ d = none := by
    cases d with
    | none =>
      simp only [JpegFile.parseTag] at hd
      injection hd with h
      simp [h.symm]
    | some s =>
      simp only [JpegFile.parseTag] at hd
      cases hps : JpegFile.parseExifDt s with
      | error e =>
        rw [hps] at hd
        exact absurd hd (by simp [Except.map])
      | ok v =>
        rw [hps] at hd
        simp only [Except.map] at hd
        injection hd with h
        simp [h.symm]
  simp only [JpegFile.get_timestmap, ho, hd]
  cases od with
  | none =>
    cases dd with
    | none =>
      refine ⟨by simp [hod.mp rfl, hdd.mp rfl], ?_, ?_, ?_⟩
      · intro x y hx
        exact absurd hx (by simp)
      · intro y hy
        exact absurd hy (by simp)
      · intro _ x hx
        exact absurd hx (by simp)
    | some y =>
      refine ⟨?_, ?_, ?_, ?_⟩
      · simp [hod.mp rfl, hdd]
      · intro x y' hx
        exact absurd hx (by simp)
      · intro y' hy' _
        injection hy' with h
        simp [h]
      · intro hbad
        exact absurd hbad (by simp)
  | some x =>
    have hno : o ≠ none := fun h => Option.noConfusion (hod.mpr h)
    cases dd with
    | none =>
      refine ⟨?_, ?_, ?_, ?_⟩
      · simp [hno]
      · intro x' y _ hy
        exact absurd hy (by simp)
      · intro y hy
        exact absurd hy (by simp)
      · intro _ x' hx'
        injection hx' with h
        simp [h]
    | some y =>
      by_cases hxy : x = y
      · subst hxy
        refine ⟨?_, ?_, ?_, ?_⟩
        · simp [hno]
        · intro x' y' hx' hy' hne
          injection hx' with h1
          injection hy' with h2
          exact absurd (h1.symm.trans h2) hne
        · intro y' hy' _
          injection hy' with h
          simp [h]
        · intro hbad
          exact absurd hbad (by simp)
      · have hnd : d ≠ none := fun h => Option.noConfusion (hdd.mpr h)
        refine ⟨?_, ?_, ?_, ?_⟩
        · simp [hno, hnd, hxy]
        · intro x' y' hx' hy' _
          simp [hxy]
        · intro y' _ hagree
          have := hagree (by simp)
          injection this with h
          exact absurd h hxy
        · intro hbad
          exact absurd hbad (by simp)

/-- C5 witness: a photo carrying only a well-formed original timestamp
`"2020:05:06 07:08:09"` yields the epoch seconds of that instant. -/
theorem JpegFile.get_timestmap_spec_witness :
    JpegFile.get_timestmap (some "2020:05:06 07:08:09") none =
      Except.ok (JpegFile.epochOfDT ⟨2020, 5, 6, 7, 8, 9⟩) := by
  have h := JpegFile.get_timestmap_spec (some "2020:05:06 07:08:09") none
    (some ⟨2020, 5, 6, 7, 8, 9⟩) none (by rfl) (by rfl)
  exact h.2.2.2 rfl ⟨2020, 5, 6, 7, 8, 9⟩ rfl

/-- C6: on the well-formed hour-24 timestamp string `"2020:01:02 24:30:00"`
the extraction does NOT normalize the hour and advance the date - it crashes:
`dt.find(' 24:') > 0` triggers the normalization branch, which evaluates
`datetime.timedelta(days=1)` on the `datetime` CLASS (imported by
`from datetime import datetime, timedelta`) and raises `AttributeError`
before any parsing happens. -/
theorem JpegFile.hour24_crashes :
    JpegFile.parseExifDt "2020:01:02 24:30:00" = Except.error TsError.attributeError ∧
      JpegFile.get_timestmap (some "2020:01:02 24:30:00") none =
        Except.error TsError.attributeError := by
  exact ⟨rfl, rfl⟩

/-- The `'GPS'` section of a piexif tag dictionary: each field models the
presence and value of one GPS tag key. -/
structure GpsBlock where
  versionID : Option (ℕ × ℕ × ℕ × ℕ)
  latitudeRef : Option String
  latitude : Option ((ℤ × ℕ) × (ℤ × ℕ) × (ℤ × ℕ))
  longitudeRef : Option String
  longitude : Option ((ℤ × ℕ) × (ℤ × ℕ) × (ℤ × ℕ))
deriving DecidableEq

/-- The `'Exif'` section: the two timestamp tags and their offset tags read
by `_get_timestmap`. -/
structure ExifSection where
  dateTimeOriginal : Option String
  offsetTimeOriginal : Option String
  dateTimeDigitized : Option String
  offsetTimeDigitized : Option String
deriving DecidableEq

/-- A photo's tag dictionary as loaded by `piexif.load`: `gps = none` models
a dictionary without a `'GPS'` key (the `KeyError` branch of `has_geo`). -/
structure ExifData where
  exifTags : ExifSection
  gps : Option GpsBlock
deriving DecidableEq

namespace JpegFile

/-- `JpegFile.has_geo`: true when the `'GPS'` section exists and carries a
`GPSLatitude` or `GPSLongitude` key; a missing section (`KeyError`) counts
as false. -/
def has_geo (e : ExifData) : Bool :=
  match e.gps with
  | none => false
  | some g => g.latitude.isSome || g.longitude.isSome

/-- `JpegFile.write_lat_lng(lat, lng)` (source lines 53-105): replace the
`'GPS'` section wholesale with the version marker `(2, 0, 0, 0)`, the two
encoded coordinates and their hemisphere references; all other sections are
preserved. -/
def write_lat_lng (e : ExifData) (lat lng : ℚ) : ExifData :=
  let lat_deg := to_deg lat "S" "N"
  let lng_deg := to_deg lng "W" "E"
  let exiv_lat := (change_to_rational (lat_deg.1 : ℚ),
    change_to_rational (lat_deg.2.1 : ℚ), change_to_rational lat_deg.2.2.1)
  let exiv_lng := (change_to_rational (lng_deg.1 : ℚ),
    change_to_rational (lng_deg.2.1 : ℚ), change_to_rational lng_deg.2.2.1)
  { e with
    gps := some
      { versionID := some (2, 0, 0, 0)
        latitudeRef := some lat_deg.2.2.2
        latitude := some exiv_lat
        longitudeRef := some lng_deg.2.2.2
        longitude := some exiv_lng } }

/-- The per-photo write step of `main` (source lines 276-283, `dry_run`
off): when the photo already has GPS data the photo is skipped (logged and
`continue`d, leaving the file untouched), otherwise `write_lat_lng`
rewrites it.  Result: the photo's tag dictionary afterwards, paired with
`true` when the photo was skipped as already geotagged. -/
def writeStep (e : ExifData) (lat lng : ℚ) : ExifData × Bool :=
  if has_geo e then (e, true) else (write_lat_lng e lat lng, false)

end JpegFile

/-- C8: for every photo whose metadata already contains a latitude or
longitude tag, the write step fails as `AlreadyGeotagged` - a non-fatal
skip - and leaves the photo's tag dictionary, in particular its geotag
block, exactly as it was: the existing geotag is never overwritten. -/
theorem JpegFile.write_skips_already_geotagged (e : ExifData) (lat lng : ℚ)
    (h : JpegFile.has_geo e = true) :
    JpegFile.writeStep e lat lng = (e, true) ∧
      (JpegFile.writeStep e lat lng).1.gps = e.gps := by
  rw [JpegFile.writeStep, if_pos h]
  exact ⟨rfl, rfl⟩

/-- C8 witness: a photo whose GPS section carries a latitude tag is skipped
untouched by the write step. -/
theorem JpegFile.write_skips_already_geotagged_witness :
    JpegFile.writeStep
        ⟨⟨none, none, none, none⟩,
          some ⟨none, none, some ((1, 1), (2, 1), (3, 1)), none, none⟩⟩ 1 2 =
      (⟨⟨none, none, none, none⟩,
        some ⟨none, none, some ((1, 1), (2, 1), (3, 1)), none, none⟩⟩, true) :=
  (JpegFile.write_skips_already_geotagged
    ⟨⟨none, none, none, none⟩,
      some ⟨none, none, some ((1, 1), (2, 1), (3, 1)), none, none⟩⟩ 1 2 rfl).1
